import Mathlib

/-!
Verification development for the VLESS relay worker (worker.js).

The repository bundles three variants of the worker.  Each variant contains a
VLESS header parser and a WebSocket session handler:

* variant A: `parseVLESSHeader(vlessBuffer, env)` (lines 335-425),
  `handleVLESSConnection` (245-328), `pipeRemoteToWebSocket` (430-457),
  `bytesToUUID` (462-474), `bytesToIPv6` (479-485);
* variant B: `parseVLESSHeader(buffer, env)` (1195-1276), `vlessHandler`
  (1088-1163), `validateUUID` (1279-1287), `safeClose` (1302-1310);
* variant C: `parseVLESSHeader(buffer)` (1985-2060) built on `DataView`,
  `handleVLESSWebSocket` (1860-1949), `makeReadableWebSocketStream`
  (1954-1982).

Buffers are modelled as `List Nat` whose entries are byte values (`Uint8Array`
guarantees values below 256; theorems that depend on this carry the bound as a
hypothesis).  JavaScript quirks that the source relies on are modelled
explicitly: an out-of-range typed-array index yields `undefined` (here
`Option.none`), bitwise operations coerce `undefined` to `0`, and template
strings print `undefined` as the text "undefined".
-/

namespace VlessWorker

/-- JS `buf[i]` on a `Uint8Array`: out-of-range access yields `undefined`,
modelled as `none`. -/
def jsByte (buf : List Nat) (i : Nat) : Option Nat := buf.get? i

/-- JS numeric coercion applied by `<<` and `|`: `undefined` behaves as `0`
(`ToInt32(NaN) = 0`). -/
def jsNum (v : Option Nat) : Nat := v.getD 0

/-- JS `Uint8Array.prototype.slice(a, b)`: clamped copy of `[a, b)`. -/
def jsSlice (buf : List Nat) (a b : Nat) : List Nat := (buf.drop a).take (b - a)

/-- JS `Uint8Array.prototype.slice(a)`: clamped copy from `a` to the end. -/
def jsSliceFrom (buf : List Nat) (a : Nat) : List Nat := buf.drop a

/-- JS template interpolation of a possibly-undefined number, as in
`` `${vlessBuffer[offset]}` ``. -/
def octetStr : Option Nat → String
  | some n => toString n
  | none => "undefined"

/-- Hex digit character used by JS `Number.prototype.toString(16)`
(lowercase). -/
def hexDigit (n : Nat) : Char :=
  if n < 10 then Char.ofNat (48 + n) else Char.ofNat (87 + n)

/-- Fuel-driven digit expansion for `Number.prototype.toString(16)`. -/
def hexCharsAux : Nat → Nat → List Char
  | 0, _ => []
  | fuel + 1, n =>
    if n < 16 then [hexDigit n]
    else hexCharsAux fuel (n / 16) ++ [hexDigit (n % 16)]

/-- JS `n.toString(16)` for a non-negative integer: lowercase hex digits with
no leading zeros (`0` prints as "0"). -/
def toHex (n : Nat) : String := ⟨hexCharsAux (n + 1) n⟩

/-- JS `b.toString(16).padStart(2, '0')` for a byte value. -/
def byteHex2 (b : Nat) : String := if b < 16 then "0" ++ toHex b else toHex b

/-- JS `s.substring(a, b)` (ASCII content, so code units and characters
coincide). -/
def subStr (s : String) (a b : Nat) : String := ⟨(s.data.drop a).take (b - a)⟩

/-- `bytesToUUID` (lines 462-474 and 1290-1299): hex-encode the 16 bytes with
2-digit groups, then cut the 32-character string at the canonical
8-4-4-4-12 positions and join with hyphens.  The inline loop of the
`DataView` parser (lines 1998-2002) computes the same string. -/
def bytesToUUID (bytes : List Nat) : String :=
  let hex := String.join (bytes.map byteHex2)
  String.intercalate "-"
    [subStr hex 0 8, subStr hex 8 12, subStr hex 12 16, subStr hex 16 20,
      subStr hex 20 32]

/-- The eight big-endian 16-bit groups of `bytesToIPv6` (lines 479-485):
the loop `for (i = 0; i < 16; i += 2)` pushes `(bytes[i] << 8) | bytes[i+1]`;
out-of-range reads coerce to `0`. -/
def ipv6Groups (bytes : List Nat) : List Nat :=
  (List.range 8).map fun i =>
    jsNum (jsByte bytes (2 * i)) * 256 + jsNum (jsByte bytes (2 * i + 1))

/-- `bytesToIPv6` (lines 479-485): hex-render each group and join with `:`. -/
def bytesToIPv6 (bytes : List Nat) : String :=
  String.intercalate ":" ((ipv6Groups bytes).map toHex)

/-- Variant B renders IPv6 by reading `buffer[offset+i]` at absolute offsets
(lines 1252-1256); same group computation, addressed from `o`. -/
def ipv6At (buf : List Nat) (o : Nat) : String :=
  String.intercalate ":"
    (((List.range 8).map fun i =>
      jsNum (jsByte buf (o + 2 * i)) * 256 + jsNum (jsByte buf (o + 2 * i + 1))).map
      toHex)

/-- Variant A renders IPv4 with a template string over four indexed reads
(line 392); an out-of-range read prints as "undefined". -/
def ipv4At (buf : List Nat) (o : Nat) : String :=
  octetStr (jsByte buf o) ++ "." ++ octetStr (jsByte buf (o + 1)) ++ "." ++
    octetStr (jsByte buf (o + 2)) ++ "." ++ octetStr (jsByte buf (o + 3))

/-- The WHATWG replacement character emitted by `TextDecoder` for invalid
UTF-8 input. -/
def replChar : Char := Char.ofNat 0xFFFD

/-- WHATWG UTF-8 decoder (non-fatal mode, as used by `new TextDecoder()`):
on an invalid byte, emit U+FFFD and resume at the offending byte.  Fuel is
the number of bytes still allowed to be consumed. -/
def utf8Aux : Nat → List Nat → List Char
  | 0, _ => []
  | _ + 1, [] => []
  | fuel + 1, b :: rest =>
    if b < 0x80 then Char.ofNat b :: utf8Aux fuel rest
    else if 0xC2 ≤ b ∧ b ≤ 0xDF then
      match rest with
      | c1 :: rest1 =>
        if 0x80 ≤ c1 ∧ c1 ≤ 0xBF then
          Char.ofNat ((b - 0xC0) * 0x40 + (c1 - 0x80)) :: utf8Aux fuel rest1
        else replChar :: utf8Aux fuel rest
      | [] => [replChar]
    else if 0xE0 ≤ b ∧ b ≤ 0xEF then
      match rest with
      | c1 :: rest1 =>
        if (if b = 0xE0 then 0xA0 else 0x80) ≤ c1 ∧
            c1 ≤ (if b = 0xED then 0x9F else 0xBF) then
          match rest1 with
          | c2 :: rest2 =>
            if 0x80 ≤ c2 ∧ c2 ≤ 0xBF then
              Char.ofNat ((b - 0xE0) * 0x1000 + (c1 - 0x80) * 0x40 + (c2 - 0x80)) ::
                utf8Aux fuel rest2
            else replChar :: utf8Aux fuel rest1
          | [] => [replChar]
        else replChar :: utf8Aux fuel rest
      | [] => [replChar]
    else if 0xF0 ≤ b ∧ b ≤ 0xF4 then
      match rest with
      | c1 :: rest1 =>
        if (if b = 0xF0 then 0x90 else 0x80) ≤ c1 ∧
            c1 ≤ (if b = 0xF4 then 0x8F else 0xBF) then
          match rest1 with
          | c2 :: rest2 =>
            if 0x80 ≤ c2 ∧ c2 ≤ 0xBF then
              match rest2 with
              | c3 :: rest3 =>
                if 0x80 ≤ c3 ∧ c3 ≤ 0xBF then
                  Char.ofNat ((b - 0xF0) * 0x40000 + (c1 - 0x80) * 0x1000 +
                      (c2 - 0x80) * 0x40 + (c3 - 0x80)) :: utf8Aux fuel rest3
                else replChar :: utf8Aux fuel rest2
              | [] => [replChar]
            else replChar :: utf8Aux fuel rest1
          | [] => [replChar]
        else replChar :: utf8Aux fuel rest
      | [] => [replChar]
    else replChar :: utf8Aux fuel rest

/-- `new TextDecoder().decode(bytes)`. -/
def utf8Decode (bytes : List Nat) : String := ⟨utf8Aux bytes.length bytes⟩

/-- Parsed header object of variant A (lines 413-424). -/
structure VHeader where
  version : Nat
  uuid : String
  command : Nat
  port : Nat
  addressType : Nat
  address : String
  deriving Repr, DecidableEq

/-- Result of variant A's `parseVLESSHeader`: either `{isValid: false, error}`
or `{isValid: true, header, remainingData}`. -/
inductive ParseResult where
  | invalid (error : String)
  | valid (header : VHeader) (remainingData : List Nat)
  deriving Repr, DecidableEq

/-- Variant A `parseVLESSHeader` (lines 335-425), instrumented with the list
of credential-store keys it looks up (`env.VLESS_ACCOUNTS.get(uuid)`).
`store` is the key-existence predicate of the KV namespace.

The domain branch mirrors the JS arithmetic faithfully: when the declared
length byte sits past the end of the buffer, `domainLength` is `undefined`,
so `slice(offset, offset + undefined)` has a `NaN` end and yields the empty
array, and the final `slice(NaN)` starts from `0` and returns the whole
buffer. -/
def parseAT (store : String → Bool) (buf : List Nat) : ParseResult × List String :=
  if buf.length < 24 then (.invalid "Buffer too short", []) else
  if jsByte buf 0 ≠ some 0 then (.invalid "Invalid VLESS version", []) else
  let uuid := bytesToUUID (jsSlice buf 1 17)
  if ¬ store uuid then (.invalid "Invalid UUID", [uuid]) else
  let aLen := jsNum (jsByte buf 17)
  if jsByte buf (18 + aLen) ≠ some 1 then (.invalid "Only TCP is supported", [uuid]) else
  let port := jsNum (jsByte buf (19 + aLen)) * 256 + jsNum (jsByte buf (20 + aLen))
  match jsByte buf (21 + aLen) with
  | some 1 =>
      (.valid ⟨0, uuid, 1, port, 1, ipv4At buf (22 + aLen)⟩
        (jsSliceFrom buf (26 + aLen)), [uuid])
  | some 2 =>
      match jsByte buf (22 + aLen) with
      | some dLen =>
          (.valid
            ⟨0, uuid, 1, port, 2,
              utf8Decode (jsSlice buf (23 + aLen) (23 + aLen + dLen))⟩
            (jsSliceFrom buf (23 + aLen + dLen)), [uuid])
      | none =>
          (.valid ⟨0, uuid, 1, port, 2, utf8Decode []⟩ buf, [uuid])
  | some 3 =>
      (.valid
        ⟨0, uuid, 1, port, 3, bytesToIPv6 (jsSlice buf (22 + aLen) (38 + aLen))⟩
        (jsSliceFrom buf (38 + aLen)), [uuid])
  | _ => (.invalid "Invalid address type", [uuid])

/-- Variant A `parseVLESSHeader`, result component only. -/
def parseA (store : String → Bool) (buf : List Nat) : ParseResult :=
  (parseAT store buf).1

/-- Result of variant B's `parseVLESSHeader`: `{valid: false, error}` or
`{valid: true, uuid, address, port, payload}`. -/
inductive BResult where
  | invalid (error : String)
  | valid (uuid address : String) (port : Nat) (payload : List Nat)
  deriving Repr, DecidableEq

/-- JS template interpolation used in variant B's error messages. -/
def optNumStr : Option Nat → String
  | some n => toString n
  | none => "undefined"

/-- Variant B `parseVLESSHeader` (lines 1195-1276), instrumented with the
credential-store keys read.  `kvPresent` models whether `env.VLESS_KV` is
bound; `store` models the KV contents.

Line 1215 evaluates `env.VLESS_KV ? validateUUID(uuid, env) : true` without
awaiting the async `validateUUID`, so `isValid` is either `true` or a pending
`Promise`, and a `Promise` object is truthy: the `Unauthorized UUID` branch is
unreachable and the parse result never depends on `store`.  The store read
inside `validateUUID` does still happen (fire-and-forget), so it is recorded
in the lookup list when `kvPresent` holds.

The surrounding `try`/`catch` is dead: no expression in the body can throw
(typed-array indexing and non-fatal `TextDecoder` do not throw). -/
def parseBT (kvPresent : Bool) (store : String → Bool) (buf : List Nat) :
    BResult × List String :=
  if buf.length < 24 then (.invalid "Buffer too short", []) else
  match jsByte buf 0 with
  | some 0 =>
    let uuid := bytesToUUID (jsSlice buf 1 17)
    let looks := if kvPresent then [uuid] else []
    let aLen := jsNum (jsByte buf 17)
    match jsByte buf (18 + aLen) with
    | some 1 =>
      let port := jsNum (jsByte buf (19 + aLen)) * 256 + jsNum (jsByte buf (20 + aLen))
      match jsByte buf (21 + aLen) with
      | some 1 =>
          (.valid uuid (ipv4At buf (22 + aLen)) port (jsSliceFrom buf (26 + aLen)),
            looks)
      | some 2 =>
          match jsByte buf (22 + aLen) with
          | some dLen =>
              (.valid uuid
                (utf8Decode (jsSlice buf (23 + aLen) (23 + aLen + dLen))) port
                (jsSliceFrom buf (23 + aLen + dLen)), looks)
          | none => (.valid uuid (utf8Decode []) port buf, looks)
      | some 3 =>
          (.valid uuid (ipv6At buf (22 + aLen)) port (jsSliceFrom buf (38 + aLen)),
            looks)
      | atv => (.invalid ("Invalid address type: " ++ optNumStr atv), looks)
    | cmd => (.invalid ("Unsupported command: " ++ optNumStr cmd), looks)
  | v => (.invalid ("Invalid version: " ++ optNumStr v), [])

/-- Variant B `parseVLESSHeader`, result component only. -/
def parseB (kvPresent : Bool) (store : String → Bool) (buf : List Nat) : BResult :=
  (parseBT kvPresent store buf).1

/-- Result of variant C's `parseVLESSHeader`: the function can throw a
`RangeError` (a `DataView` read or a typed-array view past the end of the
buffer), return `{error}`, or return `{uuid, address, port, payload}`. -/
inductive CResult where
  | thrown (msg : String)
  | errObj (error : String)
  | ok (uuid address : String) (port : Nat) (payload : List Nat)
  deriving Repr, DecidableEq

/-- Variant C `parseVLESSHeader` (lines 1985-2060), built on `DataView` and
`Uint8Array` views.  There is no minimum-length check: every read is guarded
only by the runtime bounds checks of `getUint8` / `getUint16` /
`new Uint8Array(buffer, offset, length)`, which throw `RangeError` when the
requested range does not fit the buffer. -/
def parseCT (buf : List Nat) : CResult :=
  if buf.length < 1 then .thrown "RangeError" else
  if jsByte buf 0 ≠ some 0 then .errObj "Invalid VLESS version" else
  if buf.length < 17 then .thrown "RangeError" else
  let uuid := bytesToUUID (jsSlice buf 1 17)
  if buf.length < 18 then .thrown "RangeError" else
  let aLen := jsNum (jsByte buf 17)
  if buf.length < 19 + aLen then .thrown "RangeError" else
  if jsByte buf (18 + aLen) ≠ some 1 then
    .errObj "Unsupported command: only TCP is allowed" else
  if buf.length < 21 + aLen then .thrown "RangeError" else
  let port := jsNum (jsByte buf (19 + aLen)) * 256 + jsNum (jsByte buf (20 + aLen))
  if buf.length < 22 + aLen then .thrown "RangeError" else
  match jsByte buf (21 + aLen) with
  | some 1 =>
      if buf.length < 26 + aLen then .thrown "RangeError" else
      .ok uuid
        (String.intercalate "."
          ((jsSlice buf (22 + aLen) (26 + aLen)).map fun b => toString b))
        port (jsSliceFrom buf (26 + aLen))
  | some 2 =>
      if buf.length < 23 + aLen then .thrown "RangeError" else
      let dLen := jsNum (jsByte buf (22 + aLen))
      if buf.length < 23 + aLen + dLen then .thrown "RangeError" else
      .ok uuid (utf8Decode (jsSlice buf (23 + aLen) (23 + aLen + dLen))) port
        (jsSliceFrom buf (23 + aLen + dLen))
  | some 3 =>
      if buf.length < 38 + aLen then .thrown "RangeError" else
      .ok uuid (ipv6At buf (22 + aLen)) port (jsSliceFrom buf (38 + aLen))
  | _ => .errObj "Invalid address type"

/-- Observable actions a session handler performs on its collaborators. -/
inductive Act where
  | connectTo (host : String) (port : Nat)
  | sendClient (bytes : List Nat)
  | writeRemote (bytes : List Nat)
  | closeClient (code : Nat) (reason : String)
  | closeClientPlain
  | closeRemote
  deriving Repr, DecidableEq

/-- Variant A `handleVLESSConnection`, first `message` event (lines 251-312):
parse the header; on failure close the client with `1008`; otherwise connect
to the target (`connectOk` models whether `connect` succeeds), on connect
failure close with `1011`, and on success forward the non-empty remaining
data to the remote socket.  No acknowledgment frame is ever sent. -/
def stepA (store : String → Bool) (connectOk : Bool) (buf : List Nat) : List Act :=
  match (parseAT store buf).1 with
  | .invalid _ => [.closeClient 1008 "Invalid VLESS header"]
  | .valid h rem =>
    if connectOk then
      .connectTo h.address h.port ::
        (if 0 < rem.length then [.writeRemote rem] else [])
    else
      [.connectTo h.address h.port,
        .closeClient 1011 "Failed to connect to remote server"]

/-- Variant B `vlessHandler`, first `message` event (lines 1092-1148):
parse; on failure `safeClose(ws, 1008, error)`; otherwise connect, closing
with `1011` and the runtime error message on failure, and forward the
non-empty initial payload on success. -/
def stepB (kvPresent : Bool) (store : String → Bool) (connectOk : Bool)
    (connErr : String) (buf : List Nat) : List Act :=
  match (parseBT kvPresent store buf).1 with
  | .invalid e => [.closeClient 1008 e]
  | .valid _ addr port payload =>
    if connectOk then
      .connectTo addr port ::
        (if 0 < payload.length then [.writeRemote payload] else [])
    else
      [.connectTo addr port,
        .closeClient 1011 ("Connection failed: " ++ connErr)]

/-- Variant C `handleVLESSWebSocket` (lines 1860-1949) as shipped, with the
same interface as the other handler models (credential store, connect
outcome, connect error message, first frame) and the list of credential-store
lookups performed.

Line 1875 evaluates `readableWebSocketStream.getWriter()`; a `ReadableStream`
has `getReader` but no `getWriter` method, so a `TypeError` is thrown
synchronously, outside the `try` block that starts at line 1877.  The async
handler rejects before the `101` response at line 1945 is returned, so the
handshake never completes and no frame is ever read.  Consequently none of
the code inside the `try` runs on any input: no parse, no credential lookup
(line 1892), no `[0, 0]` acknowledgment (line 1900), no `connect`
(line 1903), and no close via the `catch` (lines 1937-1943).  (Even with a
reader in place of the writer, line 1884 would pass the `Uint8Array` chunk
enqueued at line 1962 to `new DataView(buffer)` at line 1986, a further
`TypeError`.)  The handler therefore performs no observable action on its
collaborators and consults the store for no key. -/
def stepCT (_store : String → Bool) (_connectOk : Bool) (_connErr : String)
    (_buf : List Nat) : List Act × List String := ([], [])

/-- Session teardown events observable by variant A's listeners. -/
inductive SessEvent where
  | remoteDone
  | remoteError
  | clientClose
  | clientError
  deriving Repr, DecidableEq

/-- Variant A teardown routing: `pipeRemoteToWebSocket` closes the WebSocket
in its `finally` block both when the remote stream ends and when a read
throws (lines 436-456); the WebSocket `close` listener closes the remote
socket (lines 314-323); the WebSocket `error` listener only logs
(lines 325-327). -/
def teardownA : SessEvent → List Act
  | .remoteDone => [.closeClientPlain]
  | .remoteError => [.closeClientPlain]
  | .clientClose => [.closeRemote]
  | .clientError => []

/-- Byte layout of a structurally complete VLESS request frame with
version `0` and command `1`:
`version | id(16) | addonLen | addons | command | portHi portLo | addrType |
address | payload`. -/
def mkBuf (uuid : List Nat) (aLen : Nat) (addons : List Nat)
    (pHi pLo atype : Nat) (addr payload : List Nat) : List Nat :=
  0 :: uuid ++ aLen :: addons ++ 1 :: pHi :: pLo :: atype :: (addr ++ payload)

/-- Source-level address rendering by address type: dotted-decimal octets for
IPv4 (the four address bytes), `TextDecoder` output for Domain (the bytes
after the length prefix), and colon-joined hex groups for IPv6. -/
def renderAddrSrc : Nat → List Nat → String
  | 1, a => ipv4At a 0
  | 2, a => utf8Decode (a.drop 1)
  | 3, a => bytesToIPv6 a
  | _, _ => ""

/-- Hex characters produced by JS `toString(16)`. -/
def hexAlphabet : List Char := "0123456789abcdef".data

/-- The all-zero credential id. -/
def uuidZeroStr : String := "00000000-0000-0000-0000-000000000000"

/-- Sixteen zero id bytes. -/
def uuidZeroBytes : List Nat := List.replicate 16 0

/-- A credential store containing exactly the all-zero id. -/
def storeZero : String → Bool := fun s => s == uuidZeroStr

/-- A 23-byte frame: version 0, zero id, no addons, command TCP, port 80,
Domain address with declared length 0 and no payload.  Every declared length
is in bounds, yet the frame is shorter than 24 bytes. -/
def shortDomainBuf : List Nat :=
  mkBuf uuidZeroBytes 0 [] 0 80 2 [0] []

/-- A 24-byte frame: version 0, zero id, no addons, command TCP, port 80,
IPv4 address type but only two of the four address bytes present. -/
def truncatedIPv4Buf : List Nat :=
  0 :: uuidZeroBytes ++ 0 :: 1 :: 0 :: 80 :: 1 :: [7, 7]

/-- A complete 26-byte IPv4 frame to 7.7.7.7:80 with empty payload. -/
def ipv4Buf : List Nat :=
  mkBuf uuidZeroBytes 0 [] 0 80 1 [7, 7, 7, 7] []

/-- The 16-byte IPv6 loopback address `::1`. -/
def loopback16 : List Nat := List.replicate 15 0 ++ [1]

theorem jsByte_append_tail (p s : List Nat) (k : Nat) :
    jsByte (p ++ s) (p.length + k) = jsByte s k := by
  have h : p.length ≤ p.length + k := Nat.le_add_right _ _
  simp [jsByte, List.get?_eq_getElem?, List.getElem?_append_right h]

theorem jsByte_append_head (p s : List Nat) (k : Nat) (h : k < p.length) :
    jsByte (p ++ s) k = jsByte p k := by
  simp [jsByte, List.get?_eq_getElem?, List.getElem?_append_left h]

theorem drop_append_tail (p s : List Nat) (k : Nat) :
    (p ++ s).drop (p.length + k) = s.drop k := by
  rw [← List.drop_drop, List.drop_left]

theorem mkBuf_shape (uuid : List Nat) (aLen : Nat) (addons : List Nat)
    (pHi pLo atype : Nat) (addr payload : List Nat) :
    mkBuf uuid aLen addons pHi pLo atype addr payload
      = (0 :: uuid ++ aLen :: addons) ++ 1 :: pHi :: pLo :: atype :: (addr ++ payload) := by
  simp [mkBuf]

theorem mkBuf_shape' (uuid : List Nat) (aLen : Nat) (addons : List Nat)
    (pHi pLo atype : Nat) (addr payload : List Nat) :
    mkBuf uuid aLen addons pHi pLo atype addr payload
      = (0 :: uuid ++ aLen :: addons ++ [1, pHi, pLo, atype]) ++ (addr ++ payload) := by
  simp [mkBuf]

theorem mkBuf_length (uuid : List Nat) (aLen : Nat) (addons : List Nat)
    (pHi pLo atype : Nat) (addr payload : List Nat)
    (hu : uuid.length = 16) (ha : addons.length = aLen) :
    (mkBuf uuid aLen addons pHi pLo atype addr payload).length
      = 22 + aLen + addr.length + payload.length := by
  simp [mkBuf, hu, ha]
  omega

theorem mkBuf_byte_zero (uuid : List Nat) (aLen : Nat) (addons : List Nat)
    (pHi pLo atype : Nat) (addr payload : List Nat) :
    jsByte (mkBuf uuid aLen addons pHi pLo atype addr payload) 0 = some 0 := rfl

theorem mkBuf_uuid_bytes (uuid : List Nat) (aLen : Nat) (addons : List Nat)
    (pHi pLo atype : Nat) (addr payload : List Nat) (hu : uuid.length = 16) :
    jsSlice (mkBuf uuid aLen addons pHi pLo atype addr payload) 1 17 = uuid := by
  show ((mkBuf uuid aLen addons pHi pLo atype addr payload).drop 1).take 16 = uuid
  have h1 : (mkBuf uuid aLen addons pHi pLo atype addr payload).drop 1
      = uuid ++ (aLen :: addons ++ 1 :: pHi :: pLo :: atype :: (addr ++ payload)) := by
    simp [mkBuf]
  rw [h1, List.take_left' hu]

theorem mkBuf_addon_len (uuid : List Nat) (aLen : Nat) (addons : List Nat)
    (pHi pLo atype : Nat) (addr payload : List Nat) (hu : uuid.length = 16) :
    jsByte (mkBuf uuid aLen addons pHi pLo atype addr payload) 17 = some aLen := by
  have h1 : mkBuf uuid aLen addons pHi pLo atype addr payload
      = (0 :: uuid) ++ (aLen :: (addons ++ 1 :: pHi :: pLo :: atype :: (addr ++ payload))) := by
    simp [mkBuf]
  have h2 : (0 :: uuid).length = 17 := by simp [hu]
  have h3 := jsByte_append_tail (0 :: uuid)
    (aLen :: (addons ++ 1 :: pHi :: pLo :: atype :: (addr ++ payload))) 0
  rw [h2] at h3
  rw [h1]
  exact h3

theorem mkBuf_byte_tail (uuid : List Nat) (aLen : Nat) (addons : List Nat)
    (pHi pLo atype : Nat) (addr payload : List Nat)
    (hu : uuid.length = 16) (ha : addons.length = aLen) (k : Nat) :
    jsByte (mkBuf uuid aLen addons pHi pLo atype addr payload) (18 + aLen + k)
      = jsByte (1 :: pHi :: pLo :: atype :: (addr ++ payload)) k := by
  have hP : (0 :: uuid ++ aLen :: addons).length = 18 + aLen := by
    simp [hu, ha]; omega
  have h3 := jsByte_append_tail (0 :: uuid ++ aLen :: addons)
    (1 :: pHi :: pLo :: atype :: (addr ++ payload)) k
  rw [hP] at h3
  rw [mkBuf_shape]
  exact h3

theorem mkBuf_drop_tail (uuid : List Nat) (aLen : Nat) (addons : List Nat)
    (pHi pLo atype : Nat) (addr payload : List Nat)
    (hu : uuid.length = 16) (ha : addons.length = aLen) (k : Nat) :
    (mkBuf uuid aLen addons pHi pLo atype addr payload).drop (22 + aLen + k)
      = (addr ++ payload).drop k := by
  have hP : (0 :: uuid ++ aLen :: addons ++ [1, pHi, pLo, atype]).length = 22 + aLen := by
    simp [hu, ha]; omega
  have h3 := drop_append_tail (0 :: uuid ++ aLen :: addons ++ [1, pHi, pLo, atype])
    (addr ++ payload) k
  rw [hP] at h3
  rw [mkBuf_shape']
  exact h3

theorem mkBuf_byte_addr (uuid : List Nat) (aLen : Nat) (addons : List Nat)
    (pHi pLo atype : Nat) (addr payload : List Nat)
    (hu : uuid.length = 16) (ha : addons.length = aLen) (k : Nat) :
    jsByte (mkBuf uuid aLen addons pHi pLo atype addr payload) (22 + aLen + k)
      = jsByte (addr ++ payload) k := by
  have hP : (0 :: uuid ++ aLen :: addons ++ [1, pHi, pLo, atype]).length = 22 + aLen := by
    simp [hu, ha]; omega
  have h3 := jsByte_append_tail (0 :: uuid ++ aLen :: addons ++ [1, pHi, pLo, atype])
    (addr ++ payload) k
  rw [hP] at h3
  rw [mkBuf_shape']
  exact h3

theorem mkBuf_slice_addr (uuid : List Nat) (aLen : Nat) (addons : List Nat)
    (pHi pLo atype : Nat) (addr payload : List Nat)
    (hu : uuid.length = 16) (ha : addons.length = aLen) (x y : Nat) :
    jsSlice (mkBuf uuid aLen addons pHi pLo atype addr payload)
        (22 + aLen + x) (22 + aLen + y)
      = jsSlice (addr ++ payload) x y := by
  show ((mkBuf uuid aLen addons pHi pLo atype addr payload).drop (22 + aLen + x)).take
      ((22 + aLen + y) - (22 + aLen + x)) = ((addr ++ payload).drop x).take (y - x)
  rw [mkBuf_drop_tail uuid aLen addons pHi pLo atype addr payload hu ha x]
  congr 1
  omega

theorem parseAT_mkBuf_ipv4 (store : String → Bool) (uuid addons payload : List Nat)
    (aLen pHi pLo o1 o2 o3 o4 : Nat)
    (hu : uuid.length = 16) (ha : addons.length = aLen)
    (hs : store (bytesToUUID uuid) = true) :
    parseAT store (mkBuf uuid aLen addons pHi pLo 1 [o1, o2, o3, o4] payload)
      = (.valid
          ⟨0, bytesToUUID uuid, 1, pHi * 256 + pLo, 1, ipv4At [o1, o2, o3, o4] 0⟩
          payload, [bytesToUUID uuid]) := by
  set B := mkBuf uuid aLen addons pHi pLo 1 [o1, o2, o3, o4] payload with hB
  have h24 : ¬ B.length < 24 := by
    rw [hB, mkBuf_length uuid aLen addons pHi pLo 1 [o1, o2, o3, o4] payload hu ha]
    simp
    omega
  have hv : jsByte B 0 = some 0 := mkBuf_byte_zero uuid aLen addons pHi pLo 1 _ payload
  have huu : jsSlice B 1 17 = uuid := mkBuf_uuid_bytes uuid aLen addons pHi pLo 1 _ payload hu
  have hal : jsByte B 17 = some aLen := mkBuf_addon_len uuid aLen addons pHi pLo 1 _ payload hu
  have hcmd : jsByte B (18 + aLen) = some 1 := by
    have h := mkBuf_byte_tail uuid aLen addons pHi pLo 1 [o1, o2, o3, o4] payload hu ha 0
    have e : 18 + aLen + 0 = 18 + aLen := by omega
    rw [e] at h
    exact h.trans rfl
  have hph : jsByte B (19 + aLen) = some pHi := by
    have h := mkBuf_byte_tail uuid aLen addons pHi pLo 1 [o1, o2, o3, o4] payload hu ha 1
    have e : 18 + aLen + 1 = 19 + aLen := by omega
    rw [e] at h
    exact h.trans rfl
  have hpl : jsByte B (20 + aLen) = some pLo := by
    have h := mkBuf_byte_tail uuid aLen addons pHi pLo 1 [o1, o2, o3, o4] payload hu ha 2
    have e : 18 + aLen + 2 = 20 + aLen := by omega
    rw [e] at h
    exact h.trans rfl
  have hat : jsByte B (21 + aLen) = some 1 := by
    have h := mkBuf_byte_tail uuid aLen addons pHi pLo 1 [o1, o2, o3, o4] payload hu ha 3
    have e : 18 + aLen + 3 = 21 + aLen := by omega
    rw [e] at h
    exact h.trans rfl
  have ho1 : jsByte B (22 + aLen) = some o1 := by
    have h := mkBuf_byte_addr uuid aLen addons pHi pLo 1 [o1, o2, o3, o4] payload hu ha 0
    have e : 22 + aLen + 0 = 22 + aLen := by omega
    rw [e] at h
    exact h.trans rfl
  have ho2 : jsByte B (22 + aLen + 1) = some o2 := by
    exact (mkBuf_byte_addr uuid aLen addons pHi pLo 1 [o1, o2, o3, o4] payload hu ha 1).trans rfl
  have ho3 : jsByte B (22 + aLen + 2) = some o3 := by
    exact (mkBuf_byte_addr uuid aLen addons pHi pLo 1 [o1, o2, o3, o4] payload hu ha 2).trans rfl
  have ho4 : jsByte B (22 + aLen + 3) = some o4 := by
    exact (mkBuf_byte_addr uuid aLen addons pHi pLo 1 [o1, o2, o3, o4] payload hu ha 3).trans rfl
  have hdrop : jsSliceFrom B (26 + aLen) = payload := by
    have h := mkBuf_drop_tail uuid aLen addons pHi pLo 1 [o1, o2, o3, o4] payload hu ha 4
    have e : 22 + aLen + 4 = 26 + aLen := by omega
    rw [e] at h
    exact h.trans rfl
  unfold parseAT
  rw [if_neg h24]
  rw [if_neg (by simp [hv])]
  simp only [huu, hal, jsNum, Option.getD_some, hs, hcmd, hph, hpl, hat, hdrop,
    ipv4At, ho1, ho2, ho3, ho4, octetStr]
  simp [jsByte]

theorem mkBuf_domain_len (uuid : List Nat) (aLen : Nat) (addons : List Nat)
    (pHi pLo atype : Nat) (dom payload : List Nat)
    (hu : uuid.length = 16) (ha : addons.length = aLen) :
    jsByte (mkBuf uuid aLen addons pHi pLo atype (dom.length :: dom) payload)
        (22 + aLen) = some dom.length := by
  have h := mkBuf_byte_addr uuid aLen addons pHi pLo atype (dom.length :: dom)
    payload hu ha 0
  have e : 22 + aLen + 0 = 22 + aLen := by omega
  rw [e] at h
  exact h.trans rfl

theorem mkBuf_domain_bytes (uuid : List Nat) (aLen : Nat) (addons : List Nat)
    (pHi pLo atype : Nat) (dom payload : List Nat)
    (hu : uuid.length = 16) (ha : addons.length = aLen) :
    jsSlice (mkBuf uuid aLen addons pHi pLo atype (dom.length :: dom) payload)
        (23 + aLen) (23 + aLen + dom.length) = dom := by
  have e1 : 23 + aLen = 22 + aLen + 1 := by omega
  have e2 : 23 + aLen + dom.length = 22 + aLen + (1 + dom.length) := by omega
  rw [e2, e1,
    mkBuf_slice_addr uuid aLen addons pHi pLo atype (dom.length :: dom) payload
      hu ha 1 (1 + dom.length)]
  show (((dom.length :: dom) ++ payload).drop 1).take (1 + dom.length - 1) = dom
  have e3 : 1 + dom.length - 1 = dom.length := by omega
  rw [e3]
  exact List.take_left' rfl

theorem mkBuf_domain_rest (uuid : List Nat) (aLen : Nat) (addons : List Nat)
    (pHi pLo atype : Nat) (dom payload : List Nat)
    (hu : uuid.length = 16) (ha : addons.length = aLen) :
    jsSliceFrom (mkBuf uuid aLen addons pHi pLo atype (dom.length :: dom) payload)
        (23 + aLen + dom.length) = payload := by
  have e : 23 + aLen + dom.length = 22 + aLen + (1 + dom.length) := by omega
  show (mkBuf uuid aLen addons pHi pLo atype (dom.length :: dom) payload).drop
      (23 + aLen + dom.length) = payload
  rw [e, mkBuf_drop_tail uuid aLen addons pHi pLo atype (dom.length :: dom) payload
    hu ha (1 + dom.length)]
  show (dom.length :: (dom ++ payload)).drop (1 + dom.length) = payload
  have e2 : 1 + dom.length = dom.length + 1 := by omega
  rw [e2]
  show (dom ++ payload).drop dom.length = payload
  exact List.drop_left dom payload

theorem parseAT_mkBuf_domain (store : String → Bool) (uuid addons dom payload : List Nat)
    (aLen pHi pLo : Nat)
    (hu : uuid.length = 16) (ha : addons.length = aLen)
    (hs : store (bytesToUUID uuid) = true)
    (hlen : 24 ≤ (mkBuf uuid aLen addons pHi pLo 2 (dom.length :: dom) payload).length) :
    parseAT store (mkBuf uuid aLen addons pHi pLo 2 (dom.length :: dom) payload)
      = (.valid ⟨0, bytesToUUID uuid, 1, pHi * 256 + pLo, 2, utf8Decode dom⟩
          payload, [bytesToUUID uuid]) := by
  set B := mkBuf uuid aLen addons pHi pLo 2 (dom.length :: dom) payload with hB
  have h24 : ¬ B.length < 24 := by omega
  have hv : jsByte B 0 = some 0 := mkBuf_byte_zero uuid aLen addons pHi pLo 2 _ payload
  have huu : jsSlice B 1 17 = uuid := mkBuf_uuid_bytes uuid aLen addons pHi pLo 2 _ payload hu
  have hal : jsByte B 17 = some aLen := mkBuf_addon_len uuid aLen addons pHi pLo 2 _ payload hu
  have hcmd : jsByte B (18 + aLen) = some 1 := by
    have h := mkBuf_byte_tail uuid aLen addons pHi pLo 2 (dom.length :: dom) payload hu ha 0
    have e : 18 + aLen + 0 = 18 + aLen := by omega
    rw [e] at h
    exact h.trans rfl
  have hph : jsByte B (19 + aLen) = some pHi := by
    have h := mkBuf_byte_tail uuid aLen addons pHi pLo 2 (dom.length :: dom) payload hu ha 1
    have e : 18 + aLen + 1 = 19 + aLen := by omega
    rw [e] at h
    exact h.trans rfl
  have hpl : jsByte B (20 + aLen) = some pLo := by
    have h := mkBuf_byte_tail uuid aLen addons pHi pLo 2 (dom.length :: dom) payload hu ha 2
    have e : 18 + aLen + 2 = 20 + aLen := by omega
    rw [e] at h
    exact h.trans rfl
  have hat : jsByte B (21 + aLen) = some 2 := by
    have h := mkBuf_byte_tail uuid aLen addons pHi pLo 2 (dom.length :: dom) payload hu ha 3
    have e : 18 + aLen + 3 = 21 + aLen := by omega
    rw [e] at h
    exact h.trans rfl
  have hdl : jsByte B (22 + aLen) = some dom.length :=
    mkBuf_domain_len uuid aLen addons pHi pLo 2 dom payload hu ha
  have hdb : jsSlice B (23 + aLen) (23 + aLen + dom.length) = dom :=
    mkBuf_domain_bytes uuid aLen addons pHi pLo 2 dom payload hu ha
  have hdr : jsSliceFrom B (23 + aLen + dom.length) = payload :=
    mkBuf_domain_rest uuid aLen addons pHi pLo 2 dom payload hu ha
  unfold parseAT
  rw [if_neg h24]
  rw [if_neg (by simp [hv])]
  simp only [huu, hal, jsNum, Option.getD_some, hs, hcmd, hph, hpl, hat, hdl, hdb, hdr]
  simp

theorem mkBuf_ipv6_bytes (uuid : List Nat) (aLen : Nat) (addons : List Nat)
    (pHi pLo atype : Nat) (addr payload : List Nat)
    (hu : uuid.length = 16) (ha : addons.length = aLen) (h16 : addr.length = 16) :
    jsSlice (mkBuf uuid aLen addons pHi pLo atype addr payload)
        (22 + aLen) (38 + aLen) = addr := by
  have e1 : 22 + aLen = 22 + aLen + 0 := by omega
  have e2 : 38 + aLen = 22 + aLen + 16 := by omega
  rw [e1, e2, mkBuf_slice_addr uuid aLen addons pHi pLo atype addr payload hu ha 0 16]
  show ((addr ++ payload).drop 0).take (16 - 0) = addr
  simp only [List.drop_zero, Nat.sub_zero]
  exact List.take_left' h16

theorem mkBuf_ipv6_rest (uuid : List Nat) (aLen : Nat) (addons : List Nat)
    (pHi pLo atype : Nat) (addr payload : List Nat)
    (hu : uuid.length = 16) (ha : addons.length = aLen) (h16 : addr.length = 16) :
    jsSliceFrom (mkBuf uuid aLen addons pHi pLo atype addr payload)
        (38 + aLen) = payload := by
  have e : 38 + aLen = 22 + aLen + 16 := by omega
  show (mkBuf uuid aLen addons pHi pLo atype addr payload).drop (38 + aLen) = payload
  rw [e, mkBuf_drop_tail uuid aLen addons pHi pLo atype addr payload hu ha 16]
  exact List.drop_left' h16

theorem parseAT_mkBuf_ipv6 (store : String → Bool) (uuid addons addr payload : List Nat)
    (aLen pHi pLo : Nat)
    (hu : uuid.length = 16) (ha : addons.length = aLen) (h16 : addr.length = 16)
    (hs : store (bytesToUUID uuid) = true) :
    parseAT store (mkBuf uuid aLen addons pHi pLo 3 addr payload)
      = (.valid ⟨0, bytesToUUID uuid, 1, pHi * 256 + pLo, 3, bytesToIPv6 addr⟩
          payload, [bytesToUUID uuid]) := by
  set B := mkBuf uuid aLen addons pHi pLo 3 addr payload with hB
  have h24 : ¬ B.length < 24 := by
    rw [hB, mkBuf_length uuid aLen addons pHi pLo 3 addr payload hu ha]
    omega
  have hv : jsByte B 0 = some 0 := mkBuf_byte_zero uuid aLen addons pHi pLo 3 _ payload
  have huu : jsSlice B 1 17 = uuid := mkBuf_uuid_bytes uuid aLen addons pHi pLo 3 _ payload hu
  have hal : jsByte B 17 = some aLen := mkBuf_addon_len uuid aLen addons pHi pLo 3 _ payload hu
  have hcmd : jsByte B (18 + aLen) = some 1 := by
    have h := mkBuf_byte_tail uuid aLen addons pHi pLo 3 addr payload hu ha 0
    have e : 18 + aLen + 0 = 18 + aLen := by omega
    rw [e] at h
    exact h.trans rfl
  have hph : jsByte B (19 + aLen) = some pHi := by
    have h := mkBuf_byte_tail uuid aLen addons pHi pLo 3 addr payload hu ha 1
    have e : 18 + aLen + 1 = 19 + aLen := by omega
    rw [e] at h
    exact h.trans rfl
  have hpl : jsByte B (20 + aLen) = some pLo := by
    have h := mkBuf_byte_tail uuid aLen addons pHi pLo 3 addr payload hu ha 2
    have e : 18 + aLen + 2 = 20 + aLen := by omega
    rw [e] at h
    exact h.trans rfl
  have hat : jsByte B (21 + aLen) = some 3 := by
    have h := mkBuf_byte_tail uuid aLen addons pHi pLo 3 addr payload hu ha 3
    have e : 18 + aLen + 3 = 21 + aLen := by omega
    rw [e] at h
    exact h.trans rfl
  have hab : jsSlice B (22 + aLen) (38 + aLen) = addr :=
    mkBuf_ipv6_bytes uuid aLen addons pHi pLo 3 addr payload hu ha h16
  have hdr : jsSliceFrom B (38 + aLen) = payload :=
    mkBuf_ipv6_rest uuid aLen addons pHi pLo 3 addr payload hu ha h16
  unfold parseAT
  rw [if_neg h24]
  rw [if_neg (by simp [hv])]
  simp only [huu, hal, jsNum, Option.getD_some, hs, hcmd, hph, hpl, hat, hab, hdr]
  simp

set_option maxRecDepth 4000 in
theorem mkBuf_ipv6At (uuid : List Nat) (aLen : Nat) (addons : List Nat)
    (pHi pLo atype : Nat) (addr payload : List Nat)
    (hu : uuid.length = 16) (ha : addons.length = aLen) (h16 : addr.length = 16) :
    ipv6At (mkBuf uuid aLen addons pHi pLo atype addr payload) (22 + aLen)
      = bytesToIPv6 addr := by
  unfold ipv6At bytesToIPv6 ipv6Groups
  congr 1
  rw [List.map_map, List.map_map]
  apply List.map_congr_left
  intro i hi
  have hi8 : i < 8 := List.mem_range.mp hi
  simp only [Function.comp_apply]
  have h1 : jsByte (mkBuf uuid aLen addons pHi pLo atype addr payload)
      (22 + aLen + 2 * i) = jsByte addr (2 * i) := by
    rw [mkBuf_byte_addr uuid aLen addons pHi pLo atype addr payload hu ha (2 * i)]
    exact jsByte_append_head addr payload (2 * i) (by omega)
  have h2 : jsByte (mkBuf uuid aLen addons pHi pLo atype addr payload)
      (22 + aLen + 2 * i + 1) = jsByte addr (2 * i + 1) := by
    have e : 22 + aLen + 2 * i + 1 = 22 + aLen + (2 * i + 1) := by omega
    rw [e, mkBuf_byte_addr uuid aLen addons pHi pLo atype addr payload hu ha (2 * i + 1)]
    exact jsByte_append_head addr payload (2 * i + 1) (by omega)
  rw [h1, h2]

theorem parseBT_mkBuf_ipv4 (kv : Bool) (store : String → Bool)
    (uuid addons payload : List Nat) (aLen pHi pLo o1 o2 o3 o4 : Nat)
    (hu : uuid.length = 16) (ha : addons.length = aLen) :
    parseBT kv store (mkBuf uuid aLen addons pHi pLo 1 [o1, o2, o3, o4] payload)
      = (.valid (bytesToUUID uuid) (ipv4At [o1, o2, o3, o4] 0) (pHi * 256 + pLo)
          payload, if kv then [bytesToUUID uuid] else []) := by
  set B := mkBuf uuid aLen addons pHi pLo 1 [o1, o2, o3, o4] payload with hB
  have h24 : ¬ B.length < 24 := by
    rw [hB, mkBuf_length uuid aLen addons pHi pLo 1 [o1, o2, o3, o4] payload hu ha]
    simp
    omega
  have hv : jsByte B 0 = some 0 := mkBuf_byte_zero uuid aLen addons pHi pLo 1 _ payload
  have huu : jsSlice B 1 17 = uuid := mkBuf_uuid_bytes uuid aLen addons pHi pLo 1 _ payload hu
  have hal : jsByte B 17 = some aLen := mkBuf_addon_len uuid aLen addons pHi pLo 1 _ payload hu
  have hcmd : jsByte B (18 + aLen) = some 1 := by
    have h := mkBuf_byte_tail uuid aLen addons pHi pLo 1 [o1, o2, o3, o4] payload hu ha 0
    have e : 18 + aLen + 0 = 18 + aLen := by omega
    rw [e] at h
    exact h.trans rfl
  have hph : jsByte B (19 + aLen) = some pHi := by
    have h := mkBuf_byte_tail uuid aLen addons pHi pLo 1 [o1, o2, o3, o4] payload hu ha 1
    have e : 18 + aLen + 1 = 19 + aLen := by omega
    rw [e] at h
    exact h.trans rfl
  have hpl : jsByte B (20 + aLen) = some pLo := by
    have h := mkBuf_byte_tail uuid aLen addons pHi pLo 1 [o1, o2, o3, o4] payload hu ha 2
    have e : 18 + aLen + 2 = 20 + aLen := by omega
    rw [e] at h
    exact h.trans rfl
  have hat : jsByte B (21 + aLen) = some 1 := by
    have h := mkBuf_byte_tail uuid aLen addons pHi pLo 1 [o1, o2, o3, o4] payload hu ha 3
    have e : 18 + aLen + 3 = 21 + aLen := by omega
    rw [e] at h
    exact h.trans rfl
  have ho1 : jsByte B (22 + aLen) = some o1 := by
    have h := mkBuf_byte_addr uuid aLen addons pHi pLo 1 [o1, o2, o3, o4] payload hu ha 0
    have e : 22 + aLen + 0 = 22 + aLen := by omega
    rw [e] at h
    exact h.trans rfl
  have ho2 : jsByte B (22 + aLen + 1) = some o2 :=
    (mkBuf_byte_addr uuid aLen addons pHi pLo 1 [o1, o2, o3, o4] payload hu ha 1).trans rfl
  have ho3 : jsByte B (22 + aLen + 2) = some o3 :=
    (mkBuf_byte_addr uuid aLen addons pHi pLo 1 [o1, o2, o3, o4] payload hu ha 2).trans rfl
  have ho4 : jsByte B (22 + aLen + 3) = some o4 :=
    (mkBuf_byte_addr uuid aLen addons pHi pLo 1 [o1, o2, o3, o4] payload hu ha 3).trans rfl
  have hdrop : jsSliceFrom B (26 + aLen) = payload := by
    have h := mkBuf_drop_tail uuid aLen addons pHi pLo 1 [o1, o2, o3, o4] payload hu ha 4
    have e : 22 + aLen + 4 = 26 + aLen := by omega
    rw [e] at h
    exact h.trans rfl
  unfold parseBT
  rw [if_neg h24]
  simp only [hv, huu, hal, jsNum, Option.getD_some, hcmd, hph, hpl, hat, hdrop,
    ipv4At, ho1, ho2, ho3, ho4, octetStr]
  simp [jsByte]

theorem parseBT_mkBuf_domain (kv : Bool) (store : String → Bool)
    (uuid addons dom payload : List Nat) (aLen pHi pLo : Nat)
    (hu : uuid.length = 16) (ha : addons.length = aLen)
    (hlen : 24 ≤ (mkBuf uuid aLen addons pHi pLo 2 (dom.length :: dom) payload).length) :
    parseBT kv store (mkBuf uuid aLen addons pHi pLo 2 (dom.length :: dom) payload)
      = (.valid (bytesToUUID uuid) (utf8Decode dom) (pHi * 256 + pLo) payload,
          if kv then [bytesToUUID uuid] else []) := by
  set B := mkBuf uuid aLen addons pHi pLo 2 (dom.length :: dom) payload with hB
  have h24 : ¬ B.length < 24 := by omega
  have hv : jsByte B 0 = some 0 := mkBuf_byte_zero uuid aLen addons pHi pLo 2 _ payload
  have huu : jsSlice B 1 17 = uuid := mkBuf_uuid_bytes uuid aLen addons pHi pLo 2 _ payload hu
  have hal : jsByte B 17 = some aLen := mkBuf_addon_len uuid aLen addons pHi pLo 2 _ payload hu
  have hcmd : jsByte B (18 + aLen) = some 1 := by
    have h := mkBuf_byte_tail uuid aLen addons pHi pLo 2 (dom.length :: dom) payload hu ha 0
    have e : 18 + aLen + 0 = 18 + aLen := by omega
    rw [e] at h
    exact h.trans rfl
  have hph : jsByte B (19 + aLen) = some pHi := by
    have h := mkBuf_byte_tail uuid aLen addons pHi pLo 2 (dom.length :: dom) payload hu ha 1
    have e : 18 + aLen + 1 = 19 + aLen := by omega
    rw [e] at h
    exact h.trans rfl
  have hpl : jsByte B (20 + aLen) = some pLo := by
    have h := mkBuf_byte_tail uuid aLen addons pHi pLo 2 (dom.length :: dom) payload hu ha 2
    have e : 18 + aLen + 2 = 20 + aLen := by omega
    rw [e] at h
    exact h.trans rfl
  have hat : jsByte B (21 + aLen) = some 2 := by
    have h := mkBuf_byte_tail uuid aLen addons pHi pLo 2 (dom.length :: dom) payload hu ha 3
    have e : 18 + aLen + 3 = 21 + aLen := by omega
    rw [e] at h
    exact h.trans rfl
  have hdl : jsByte B (22 + aLen) = some dom.length :=
    mkBuf_domain_len uuid aLen addons pHi pLo 2 dom payload hu ha
  have hdb : jsSlice B (23 + aLen) (23 + aLen + dom.length) = dom :=
    mkBuf_domain_bytes uuid aLen addons pHi pLo 2 dom payload hu ha
  have hdr : jsSliceFrom B (23 + aLen + dom.length) = payload :=
    mkBuf_domain_rest uuid aLen addons pHi pLo 2 dom payload hu ha
  unfold parseBT
  rw [if_neg h24]
  simp only [hv, huu, hal, jsNum, Option.getD_some, hcmd, hph, hpl, hat, hdl, hdb, hdr]

theorem parseBT_mkBuf_ipv6 (kv : Bool) (store : String → Bool)
    (uuid addons addr payload : List Nat) (aLen pHi pLo : Nat)
    (hu : uuid.length = 16) (ha : addons.length = aLen) (h16 : addr.length = 16) :
    parseBT kv store (mkBuf uuid aLen addons pHi pLo 3 addr payload)
      = (.valid (bytesToUUID uuid) (bytesToIPv6 addr) (pHi * 256 + pLo) payload,
          if kv then [bytesToUUID uuid] else []) := by
  set B := mkBuf uuid aLen addons pHi pLo 3 addr payload with hB
  have h24 : ¬ B.length < 24 := by
    rw [hB, mkBuf_length uuid aLen addons pHi pLo 3 addr payload hu ha]
    omega
  have hv : jsByte B 0 = some 0 := mkBuf_byte_zero uuid aLen addons pHi pLo 3 _ payload
  have huu : jsSlice B 1 17 = uuid := mkBuf_uuid_bytes uuid aLen addons pHi pLo 3 _ payload hu
  have hal : jsByte B 17 = some aLen := mkBuf_addon_len uuid aLen addons pHi pLo 3 _ payload hu
  have hcmd : jsByte B (18 + aLen) = some 1 := by
    have h := mkBuf_byte_tail uuid aLen addons pHi pLo 3 addr payload hu ha 0
    have e : 18 + aLen + 0 = 18 + aLen := by omega
    rw [e] at h
    exact h.trans rfl
  have hph : jsByte B (19 + aLen) = some pHi := by
    have h := mkBuf_byte_tail uuid aLen addons pHi pLo 3 addr payload hu ha 1
    have e : 18 + aLen + 1 = 19 + aLen := by omega
    rw [e] at h
    exact h.trans rfl
  have hpl : jsByte B (20 + aLen) = some pLo := by
    have h := mkBuf_byte_tail uuid aLen addons pHi pLo 3 addr payload hu ha 2
    have e : 18 + aLen + 2 = 20 + aLen := by omega
    rw [e] at h
    exact h.trans rfl
  have hat : jsByte B (21 + aLen) = some 3 := by
    have h := mkBuf_byte_tail uuid aLen addons pHi pLo 3 addr payload hu ha 3
    have e : 18 + aLen + 3 = 21 + aLen := by omega
    rw [e] at h
    exact h.trans rfl
  have hv6 : ipv6At B (22 + aLen) = bytesToIPv6 addr :=
    mkBuf_ipv6At uuid aLen addons pHi pLo 3 addr payload hu ha h16
  have hdr : jsSliceFrom B (38 + aLen) = payload :=
    mkBuf_ipv6_rest uuid aLen addons pHi pLo 3 addr payload hu ha h16
  unfold parseBT
  rw [if_neg h24]
  simp only [hv, huu, hal, jsNum, Option.getD_some, hcmd, hph, hpl, hat, hv6, hdr]

theorem hexCharsAux_succ (fuel n : Nat) :
    hexCharsAux (fuel + 1) n
      = if n < 16 then [hexDigit n]
        else hexCharsAux fuel (n / 16) ++ [hexDigit (n % 16)] := rfl

theorem hexCharsAux_ne_nil (fuel n : Nat) : hexCharsAux (fuel + 1) n ≠ [] := by
  rw [hexCharsAux_succ]
  split
  · simp
  · simp

theorem hexDigit_mem (n : Nat) (h : n < 16) : hexDigit n ∈ hexAlphabet := by
  unfold hexDigit hexAlphabet
  interval_cases n <;> decide

theorem hexDigit_ne_zero (n : Nat) (h1 : 1 ≤ n) (h : n < 16) : hexDigit n ≠ '0' := by
  unfold hexDigit
  interval_cases n <;> decide

theorem hexCharsAux_head_ne_zero :
    ∀ fuel n, n < fuel → n ≠ 0 → (hexCharsAux fuel n).head? ≠ some '0' := by
  intro fuel
  induction fuel with
  | zero => intro n h; omega
  | succ f ih =>
    intro n hlt hn0
    rw [hexCharsAux_succ]
    split
    · next h16 =>
      simp only [List.head?_cons]
      intro hc
      exact hexDigit_ne_zero n (by omega) h16 (Option.some.inj hc)
    · next h16 =>
      have h1 : n / 16 ≠ 0 := by
        intro hz
        have := Nat.div_eq_zero_iff (by omega : 0 < 16) |>.mp hz
        omega
      have hd : n / 16 < n := Nat.div_lt_self (by omega) (by omega)
      have h2 : n / 16 < f := by omega
      have h3 := ih (n / 16) h2 h1
      obtain ⟨f', rfl⟩ : ∃ f', f = f' + 1 := ⟨f - 1, by omega⟩
      cases hh : hexCharsAux (f' + 1) (n / 16) with
      | nil => exact absurd hh (hexCharsAux_ne_nil f' (n / 16))
      | cons a t =>
        rw [hh] at h3
        simpa using h3

theorem hexCharsAux_mem :
    ∀ fuel n c, c ∈ hexCharsAux fuel n → c ∈ hexAlphabet := by
  intro fuel
  induction fuel with
  | zero => intro n c h; simp [hexCharsAux] at h
  | succ f ih =>
    intro n c h
    rw [hexCharsAux_succ] at h
    split at h
    · next h16 =>
      simp only [List.mem_singleton] at h
      exact h ▸ hexDigit_mem n h16
    · rcases List.mem_append.mp h with h1 | h2
      · exact ih (n / 16) c h1
      · simp only [List.mem_singleton] at h2
        exact h2 ▸ hexDigit_mem (n % 16) (Nat.mod_lt n (by omega))

theorem toHex_data (n : Nat) : (toHex n).data = hexCharsAux (n + 1) n := rfl

theorem toHex_ne_nil (n : Nat) : (toHex n).data ≠ [] :=
  hexCharsAux_ne_nil n n

theorem toHex_head_ne_zero (n : Nat) (h : n ≠ 0) :
    (toHex n).data.head? ≠ some '0' :=
  hexCharsAux_head_ne_zero (n + 1) n (Nat.lt_succ_self n) h

theorem toHex_mem (n : Nat) (c : Char) (h : c ∈ (toHex n).data) : c ∈ hexAlphabet :=
  hexCharsAux_mem (n + 1) n c h

theorem toHex_small (n : Nat) (h : n < 16) : toHex n = ⟨[hexDigit n]⟩ := by
  unfold toHex
  rw [hexCharsAux_succ, if_pos h]

theorem byteHex2_eq (b : Nat) (hb : b < 256) :
    byteHex2 b = ⟨[hexDigit (b / 16), hexDigit (b % 16)]⟩ := by
  unfold byteHex2
  split
  · next h16 =>
    rw [toHex_small b h16]
    apply congrArg String.mk
    show '0' :: [hexDigit b] = [hexDigit (b / 16), hexDigit (b % 16)]
    rw [Nat.div_eq_of_lt h16, Nat.mod_eq_of_lt h16]
    rfl
  · next h16 =>
    apply congrArg String.mk
    obtain ⟨f, rfl⟩ : ∃ f, b = f + 1 := ⟨b - 1, by omega⟩
    rw [hexCharsAux_succ, if_neg h16, hexCharsAux_succ,
      if_pos (by omega : (f + 1) / 16 < 16)]
    rfl

theorem byteHex2_data (b : Nat) (hb : b < 256) :
    (byteHex2 b).data = [hexDigit (b / 16), hexDigit (b % 16)] := by
  rw [byteHex2_eq b hb]

theorem byteHex2_mem (b : Nat) (hb : b < 256) (c : Char)
    (hc : c ∈ (byteHex2 b).data) : c ∈ hexAlphabet := by
  rw [byteHex2_data b hb] at hc
  simp only [List.mem_cons, List.not_mem_nil, or_false] at hc
  rcases hc with hc | hc
  · exact hc ▸ hexDigit_mem (b / 16) (by omega)
  · exact hc ▸ hexDigit_mem (b % 16) (Nat.mod_lt b (by omega))

theorem parseAT_lookups (store : String → Bool) (buf : List Nat)
    (hlen : 24 ≤ buf.length) (hv : jsByte buf 0 = some 0) :
    (parseAT store buf).2 = [bytesToUUID (jsSlice buf 1 17)] := by
  unfold parseAT
  rw [if_neg (by omega)]
  rw [if_neg (by simp [hv])]
  dsimp only
  split
  · rfl
  · split
    · rfl
    · split <;> try rfl
      split <;> rfl

theorem stringDataExt (s t : String) (h : s.data = t.data) : s = t :=
  congrArg String.mk h

theorem mk_data (l : List Char) : (String.mk l).data = l := rfl

theorem dash_data : ("-" : String).data = ['-'] := rfl

theorem subStr_data (s : String) (a b : Nat) :
    (subStr s a b).data = (s.data.drop a).take (b - a) := rfl

theorem intercalate5_eq (s1 s2 s3 s4 s5 : String) :
    String.intercalate "-" [s1, s2, s3, s4, s5]
      = s1 ++ "-" ++ s2 ++ "-" ++ s3 ++ "-" ++ s4 ++ "-" ++ s5 := rfl

theorem join_foldl_data (l : List String) (acc : String) :
    (l.foldl (fun r s => r ++ s) acc).data
      = acc.data ++ (l.map String.data).flatten := by
  induction l generalizing acc with
  | nil => simp
  | cons a t ih => simp [List.foldl_cons, ih, String.data_append]

theorem join_data (l : List String) :
    (String.join l).data = (l.map String.data).flatten := by
  have h := join_foldl_data l ""
  simpa [String.join] using h

set_option maxHeartbeats 800000 in
theorem bytesToUUID_canonical
    (b0 b1 b2 b3 b4 b5 b6 b7 b8 b9 b10 b11 b12 b13 b14 b15 : Nat)
    (h : ∀ b ∈ [b0, b1, b2, b3, b4, b5, b6, b7, b8, b9, b10, b11, b12, b13, b14, b15],
      b < 256) :
    bytesToUUID [b0, b1, b2, b3, b4, b5, b6, b7, b8, b9, b10, b11, b12, b13, b14, b15]
      = byteHex2 b0 ++ byteHex2 b1 ++ byteHex2 b2 ++ byteHex2 b3 ++ "-" ++
        byteHex2 b4 ++ byteHex2 b5 ++ "-" ++ byteHex2 b6 ++ byteHex2 b7 ++ "-" ++
        byteHex2 b8 ++ byteHex2 b9 ++ "-" ++ byteHex2 b10 ++ byteHex2 b11 ++
        byteHex2 b12 ++ byteHex2 b13 ++ byteHex2 b14 ++ byteHex2 b15 := by
  have h0 : b0 < 256 := h b0 (by simp)
  have h1 : b1 < 256 := h b1 (by simp)
  have h2 : b2 < 256 := h b2 (by simp)
  have h3 : b3 < 256 := h b3 (by simp)
  have h4 : b4 < 256 := h b4 (by simp)
  have h5 : b5 < 256 := h b5 (by simp)
  have h6 : b6 < 256 := h b6 (by simp)
  have h7 : b7 < 256 := h b7 (by simp)
  have h8 : b8 < 256 := h b8 (by simp)
  have h9 : b9 < 256 := h b9 (by simp)
  have h10 : b10 < 256 := h b10 (by simp)
  have h11 : b11 < 256 := h b11 (by simp)
  have h12 : b12 < 256 := h b12 (by simp)
  have h13 : b13 < 256 := h b13 (by simp)
  have h14 : b14 < 256 := h b14 (by simp)
  have h15 : b15 < 256 := h b15 (by simp)
  unfold bytesToUUID
  dsimp only
  simp only [List.map_cons, List.map_nil]
  rw [byteHex2_eq b0 h0, byteHex2_eq b1 h1, byteHex2_eq b2 h2, byteHex2_eq b3 h3,
    byteHex2_eq b4 h4, byteHex2_eq b5 h5, byteHex2_eq b6 h6, byteHex2_eq b7 h7,
    byteHex2_eq b8 h8, byteHex2_eq b9 h9, byteHex2_eq b10 h10, byteHex2_eq b11 h11,
    byteHex2_eq b12 h12, byteHex2_eq b13 h13, byteHex2_eq b14 h14, byteHex2_eq b15 h15]
  rw [intercalate5_eq]
  apply stringDataExt
  have hd : (String.join
      [(⟨[hexDigit (b0 / 16), hexDigit (b0 % 16)]⟩ : String),
        ⟨[hexDigit (b1 / 16), hexDigit (b1 % 16)]⟩,
        ⟨[hexDigit (b2 / 16), hexDigit (b2 % 16)]⟩,
        ⟨[hexDigit (b3 / 16), hexDigit (b3 % 16)]⟩,
        ⟨[hexDigit (b4 / 16), hexDigit (b4 % 16)]⟩,
        ⟨[hexDigit (b5 / 16), hexDigit (b5 % 16)]⟩,
        ⟨[hexDigit (b6 / 16), hexDigit (b6 % 16)]⟩,
        ⟨[hexDigit (b7 / 16), hexDigit (b7 % 16)]⟩,
        ⟨[hexDigit (b8 / 16), hexDigit (b8 % 16)]⟩,
        ⟨[hexDigit (b9 / 16), hexDigit (b9 % 16)]⟩,
        ⟨[hexDigit (b10 / 16), hexDigit (b10 % 16)]⟩,
        ⟨[hexDigit (b11 / 16), hexDigit (b11 % 16)]⟩,
        ⟨[hexDigit (b12 / 16), hexDigit (b12 % 16)]⟩,
        ⟨[hexDigit (b13 / 16), hexDigit (b13 % 16)]⟩,
        ⟨[hexDigit (b14 / 16), hexDigit (b14 % 16)]⟩,
        ⟨[hexDigit (b15 / 16), hexDigit (b15 % 16)]⟩]).data
      = [hexDigit (b0 / 16), hexDigit (b0 % 16), hexDigit (b1 / 16), hexDigit (b1 % 16),
          hexDigit (b2 / 16), hexDigit (b2 % 16), hexDigit (b3 / 16), hexDigit (b3 % 16),
          hexDigit (b4 / 16), hexDigit (b4 % 16), hexDigit (b5 / 16), hexDigit (b5 % 16),
          hexDigit (b6 / 16), hexDigit (b6 % 16), hexDigit (b7 / 16), hexDigit (b7 % 16),
          hexDigit (b8 / 16), hexDigit (b8 % 16), hexDigit (b9 / 16), hexDigit (b9 % 16),
          hexDigit (b10 / 16), hexDigit (b10 % 16), hexDigit (b11 / 16), hexDigit (b11 % 16),
          hexDigit (b12 / 16), hexDigit (b12 % 16), hexDigit (b13 / 16), hexDigit (b13 % 16),
          hexDigit (b14 / 16), hexDigit (b14 % 16), hexDigit (b15 / 16), hexDigit (b15 % 16)] := by
    rw [join_data]
    rfl
  simp only [String.data_append, subStr_data, mk_data, dash_data, hd]
  simp

theorem parseCT_bad_version (buf : List Nat) (hv : jsByte buf 0 ≠ some 0) :
    parseCT buf = .thrown "RangeError"
      ∨ parseCT buf = .errObj "Invalid VLESS version" := by
  unfold parseCT
  by_cases h1 : buf.length < 1
  · rw [if_pos h1]
    exact Or.inl rfl
  · rw [if_neg h1, if_pos hv]
    exact Or.inr rfl

theorem parseAT_reject (store : String → Bool) (buf : List Nat)
    (hbad : buf.length < 24 ∨ jsByte buf 0 ≠ some 0) :
    parseAT store buf
      = if buf.length < 24 then (.invalid "Buffer too short", ([] : List String))
        else (.invalid "Invalid VLESS version", []) := by
  unfold parseAT
  by_cases h24 : buf.length < 24
  · rw [if_pos h24, if_pos h24]
  · have hv : jsByte buf 0 ≠ some 0 := hbad.resolve_left h24
    rw [if_neg h24, if_neg h24, if_pos hv]

theorem parseBT_lookups_reject (kv : Bool) (store : String → Bool) (buf : List Nat)
    (hbad : buf.length < 24 ∨ jsByte buf 0 ≠ some 0) :
    (parseBT kv store buf).2 = [] := by
  unfold parseBT
  by_cases h24 : buf.length < 24
  · rw [if_pos h24]
  · have hv : jsByte buf 0 ≠ some 0 := hbad.resolve_left h24
    rw [if_neg h24]
    cases h0 : jsByte buf 0 with
    | none => rfl
    | some k =>
      cases k with
      | zero => exact absurd h0 hv
      | succ m => rfl

theorem stepA_no_send (store : String → Bool) (cOk : Bool) (buf bs : List Nat) :
    Act.sendClient bs ∉ stepA store cOk buf := by
  unfold stepA
  split
  · simp
  · split
    · split <;> simp
    · simp

theorem stepB_no_send (kv : Bool) (store : String → Bool) (cOk : Bool)
    (cErr : String) (buf bs : List Nat) :
    Act.sendClient bs ∉ stepB kv store cOk cErr buf := by
  unfold stepB
  split
  · simp
  · split
    · split <;> simp
    · simp

/-- C1, counterexample.  The claim says a buffer shorter than 24 bytes always
fails with `ShortBuffer` and that a successful parse takes every field from
in-bounds positions.  The `DataView` parser (1985-2060) accepts a 23-byte
frame (version 0, zero id, no addons, TCP, port 80, zero-length domain), and
the variant A parser (335-425) accepts a 24-byte frame whose IPv4 address
reads two bytes past the end of the buffer, rendering them as "undefined". -/
theorem C1_counterexample :
    parseCT shortDomainBuf = .ok uuidZeroStr "" 80 []
    ∧ shortDomainBuf.length = 23
    ∧ (parseAT storeZero truncatedIPv4Buf).1
      = .valid ⟨0, uuidZeroStr, 1, 80, 1, "7.7.undefined.undefined"⟩ []
    ∧ truncatedIPv4Buf.length = 24 := by decide

/-- C1 (amended): in variant A's `parseVLESSHeader` (lines 335-425) any buffer
shorter than 24 bytes fails with the `Buffer too short` error, for every
credential store. -/
theorem C1_short_buffer (store : String → Bool) (buf : List Nat)
    (h : buf.length < 24) :
    (parseAT store buf).1 = .invalid "Buffer too short" := by
  unfold parseAT
  rw [if_pos h]

/-- C1 witness: the empty buffer is rejected as too short. -/
theorem C1_short_buffer_witness :
    (parseAT storeZero []).1 = .invalid "Buffer too short" :=
  C1_short_buffer storeZero [] (by decide)

/-- C2, code-bug evaluation.  In variant B (lines 1195-1276) `validateUUID`
is invoked without `await`, so the pending `Promise` is truthy and the
`Unauthorized UUID` branch is dead: a first frame whose id is absent from the
store (the store here rejects every key) still parses as valid, and
`vlessHandler` invokes `connect` for it. -/
theorem C2_auth_bypass :
    (parseBT true (fun _ => false) ipv4Buf).1
      = .valid uuidZeroStr "7.7.7.7" 80 []
    ∧ stepB true (fun _ => false) true "" ipv4Buf = [.connectTo "7.7.7.7" 80]
    ∧ (fun _ => false : String → Bool) uuidZeroStr = false := by decide

/-- C3, counterexample.  A 23-byte frame with version 0, command TCP, a
zero-length domain address, every declared length in bounds, and an id that
the store accepts is nevertheless rejected with `Buffer too short` by the
minimum-length guard. -/
theorem C3_counterexample :
    (parseAT storeZero shortDomainBuf).1 = .invalid "Buffer too short"
    ∧ storeZero (bytesToUUID (jsSlice shortDomainBuf 1 17)) = true
    ∧ shortDomainBuf.length = 23 := by decide

/-- C3 (amended): for every header frame of total length at least 24 with
version 0, command 1, a known id, and an address of type 1, 2 or 3 whose
declared lengths are in bounds, both `parseVLESSHeader` variants (335-425 and
1195-1276) succeed and reconstruct the address (dotted-decimal octets for
IPv4, `TextDecoder` output for Domain, colon-joined hex groups for IPv6), the
big-endian port, and return the bytes after the address unchanged as the
initial payload. -/
theorem C3_header_reconstruction (store : String → Bool) (kv : Bool)
    (uuid addons addr payload : List Nat) (aLen pHi pLo atype : Nat)
    (hu : uuid.length = 16) (ha : addons.length = aLen)
    (hty : atype = 1 ∧ addr.length = 4
      ∨ atype = 2 ∧ (∃ dom, addr = dom.length :: dom)
      ∨ atype = 3 ∧ addr.length = 16)
    (hs : store (bytesToUUID uuid) = true)
    (hlen : 24 ≤ (mkBuf uuid aLen addons pHi pLo atype addr payload).length) :
    parseAT store (mkBuf uuid aLen addons pHi pLo atype addr payload)
      = (.valid ⟨0, bytesToUUID uuid, 1, pHi * 256 + pLo, atype,
          renderAddrSrc atype addr⟩ payload, [bytesToUUID uuid])
    ∧ parseBT kv store (mkBuf uuid aLen addons pHi pLo atype addr payload)
      = (.valid (bytesToUUID uuid) (renderAddrSrc atype addr) (pHi * 256 + pLo)
          payload, if kv then [bytesToUUID uuid] else []) := by
  rcases hty with ⟨rfl, h4⟩ | ⟨rfl, dom, rfl⟩ | ⟨rfl, h16⟩
  · rcases addr with _ | ⟨o1, _ | ⟨o2, _ | ⟨o3, _ | ⟨o4, _ | ⟨o5, t⟩⟩⟩⟩⟩ <;>
      simp only [List.length_cons, List.length_nil] at h4 <;> try omega
    exact ⟨parseAT_mkBuf_ipv4 store uuid addons payload aLen pHi pLo o1 o2 o3 o4
        hu ha hs,
      parseBT_mkBuf_ipv4 kv store uuid addons payload aLen pHi pLo o1 o2 o3 o4
        hu ha⟩
  · exact ⟨parseAT_mkBuf_domain store uuid addons dom payload aLen pHi pLo
        hu ha hs hlen,
      parseBT_mkBuf_domain kv store uuid addons dom payload aLen pHi pLo
        hu ha hlen⟩
  · exact ⟨parseAT_mkBuf_ipv6 store uuid addons addr payload aLen pHi pLo
        hu ha h16 hs,
      parseBT_mkBuf_ipv6 kv store uuid addons addr payload aLen pHi pLo
        hu ha h16⟩

/-- C3 witness: a concrete domain-address frame for `example.com`, port 80,
payload `[1, 2, 3]`, with the all-zero id present in the store. -/
theorem C3_header_reconstruction_witness :
    parseAT storeZero (mkBuf uuidZeroBytes 0 [] 0 80 2
        (11 :: [101, 120, 97, 109, 112, 108, 101, 46, 99, 111, 109]) [1, 2, 3])
      = (.valid ⟨0, bytesToUUID uuidZeroBytes, 1, 0 * 256 + 80, 2,
          renderAddrSrc 2
            (11 :: [101, 120, 97, 109, 112, 108, 101, 46, 99, 111, 109])⟩
          [1, 2, 3], [bytesToUUID uuidZeroBytes])
    ∧ parseBT true storeZero (mkBuf uuidZeroBytes 0 [] 0 80 2
        (11 :: [101, 120, 97, 109, 112, 108, 101, 46, 99, 111, 109]) [1, 2, 3])
      = (.valid (bytesToUUID uuidZeroBytes)
          (renderAddrSrc 2
            (11 :: [101, 120, 97, 109, 112, 108, 101, 46, 99, 111, 109]))
          (0 * 256 + 80) [1, 2, 3], if true then [bytesToUUID uuidZeroBytes] else []) :=
  C3_header_reconstruction storeZero true uuidZeroBytes []
    (11 :: [101, 120, 97, 109, 112, 108, 101, 46, 99, 111, 109]) [1, 2, 3]
    0 0 80 2 (by decide) rfl
    (Or.inr (Or.inl ⟨rfl, [101, 120, 97, 109, 112, 108, 101, 46, 99, 111, 109],
      by decide⟩))
    (by decide) (by decide)

/-- C4, counterexample.  The claim says an unknown credential always closes
the client transport with code class 1008.  In variant B (1088-1276) the
credential check is inoperative — `validateUUID` is invoked without `await`
at line 1215, so the truthy pending `Promise` passes every id — and for a
first frame whose id the store rejects, the handler's action trace is a bare
connect: no close with 1008 (or any code) occurs. -/
theorem C4_counterexample :
    stepB true (fun _ => false) true "" ipv4Buf = [.connectTo "7.7.7.7" 80]
    ∧ (fun _ => false : String → Bool) uuidZeroStr = false := by decide

/-- C4 (amended): in the callback handlers (251-312 and 1088-1163), every
header-parse failure closes the client with 1008 and a connect failure with
1011; in variant A an unknown credential is a parse failure and closes with
1008, while in variant B the unknown-credential check is inoperative, so an
unknown credential causes no close at all.  The stream-piping handler
(1860-1949) performs no action on any input — it throws a `TypeError` at
line 1875 before its `try` block, so its failure paths, including the 1011
close at 1937-1943, are unreachable. -/
theorem C4_close_codes (store : String → Bool) (kv cOk : Bool) (cErr : String)
    (buf : List Nat) :
    (∀ e, (parseAT store buf).1 = .invalid e →
      stepA store cOk buf = [.closeClient 1008 "Invalid VLESS header"])
    ∧ (∀ e, (parseBT kv store buf).1 = .invalid e →
      stepB kv store cOk cErr buf = [.closeClient 1008 e])
    ∧ (∀ h rem, (parseAT store buf).1 = .valid h rem →
      stepA store false buf
        = [.connectTo h.address h.port,
            .closeClient 1011 "Failed to connect to remote server"])
    ∧ (∀ u a p pay, (parseBT kv store buf).1 = .valid u a p pay →
      stepB kv store false cErr buf
        = [.connectTo a p, .closeClient 1011 ("Connection failed: " ++ cErr)])
    ∧ stepCT store cOk cErr buf = ([], []) := by
  refine ⟨?_, ?_, ?_, ?_, rfl⟩
  · intro e he
    unfold stepA
    rw [he]
  · intro e he
    unfold stepB
    rw [he]
  · intro h rem he
    unfold stepA
    rw [he]
    rfl
  · intro u a p pay he
    unfold stepB
    rw [he]
    rfl

/-- C4 witness: a too-short buffer under the variant A handler is closed with
1008. -/
theorem C4_close_codes_witness :
    stepA (fun _ => false) true [] = [.closeClient 1008 "Invalid VLESS header"] :=
  (C4_close_codes (fun _ => false) false true "" []).1 "Buffer too short"
    (by decide)

/-- C5, counterexample.  The claim says the relay emits a two-byte
acknowledgment after authorization in every deployment behind a configuration
toggle.  Variant A's handler (251-312) sends nothing on the client transport
during a fully successful first frame: its action trace is just the connect,
with no `sendClient` action and no toggle consulted. -/
theorem C5_counterexample :
    stepA storeZero true ipv4Buf = [.connectTo "7.7.7.7" 80] := by decide

/-- C5 (amended): the relay never emits an acknowledgment, and no
configuration toggle exists.  The callback handlers (251-312 and 1088-1163)
send nothing on the client transport while handling the first frame, and the
stream-piping handler's hard-coded `server.send(new Uint8Array([0, 0]))` at
line 1900 is unreachable: the handler throws a `TypeError` at line 1875
before any frame is read, so it performs no action on any input. -/
theorem C5_ack_behavior :
    (∀ (store : String → Bool) (cOk : Bool) (buf bs : List Nat),
      Act.sendClient bs ∉ stepA store cOk buf)
    ∧ (∀ (kv : Bool) (store : String → Bool) (cOk : Bool) (cErr : String)
        (buf bs : List Nat),
      Act.sendClient bs ∉ stepB kv store cOk cErr buf)
    ∧ (∀ (store : String → Bool) (cOk : Bool) (cErr : String) (buf : List Nat),
      stepCT store cOk cErr buf = ([], [])) :=
  ⟨stepA_no_send, stepB_no_send, fun _ _ _ _ => rfl⟩

/-- C6, counterexample.  The claim says that when the client transport closes
or errors, the remote connection is closed and pending operations cancelled.
Variant A's `error` listener (lines 325-327) only logs: the event routing
performs no action at all on a client `error` event, so nothing closes the
remote connection there. -/
theorem C6_counterexample : teardownA .clientError = [] := rfl

/-- C6 (amended): variant A's teardown routing closes the client transport
when the remote stream ends or errors (the `finally` of
`pipeRemoteToWebSocket`, lines 450-456), and closes the remote socket when
the client transport emits `close` (lines 314-323); a client `error` event
alone only logs. -/
theorem C6_teardown :
    teardownA .remoteDone = [.closeClientPlain]
    ∧ teardownA .remoteError = [.closeClientPlain]
    ∧ teardownA .clientClose = [.closeRemote] := ⟨rfl, rfl, rfl⟩

/-- C8: `bytesToIPv6` renders the eight big-endian 16-bit groups with JS
`toString(16)` — nonempty, lowercase hex alphabet, no leading zero for a
nonzero group — joined by `:` with no zero compression; the loopback bytes
render as "0:0:0:0:0:0:0:1"; and a parsed IPv6 header carries exactly
`bytesToIPv6` of its 16 address bytes. -/
theorem C8_ipv6_rendering :
    (∀ g : Nat, (toHex g).data ≠ []
      ∧ (∀ c ∈ (toHex g).data, c ∈ hexAlphabet)
      ∧ (g ≠ 0 → (toHex g).data.head? ≠ some '0'))
    ∧ bytesToIPv6 loopback16 = "0:0:0:0:0:0:0:1"
    ∧ (∀ (store : String → Bool) (uuid addons addr payload : List Nat)
        (aLen pHi pLo : Nat), uuid.length = 16 → addons.length = aLen →
        addr.length = 16 → store (bytesToUUID uuid) = true →
        (parseAT store (mkBuf uuid aLen addons pHi pLo 3 addr payload)).1
          = .valid ⟨0, bytesToUUID uuid, 1, pHi * 256 + pLo, 3, bytesToIPv6 addr⟩
              payload) := by
  refine ⟨fun g => ⟨toHex_ne_nil g, toHex_mem g, toHex_head_ne_zero g⟩,
    by decide, ?_⟩
  intro store uuid addons addr payload aLen pHi pLo hu ha h16 hs
  rw [parseAT_mkBuf_ipv6 store uuid addons addr payload aLen pHi pLo hu ha h16 hs]

/-- C8 witness: the loopback frame parses to the expected rendering, and the
group value 443 renders with no leading zero. -/
theorem C8_ipv6_rendering_witness :
    (parseAT storeZero (mkBuf uuidZeroBytes 0 [] 1 187 3 loopback16 [])).1
      = .valid ⟨0, bytesToUUID uuidZeroBytes, 1, 1 * 256 + 187, 3,
          bytesToIPv6 loopback16⟩ []
    ∧ (toHex 443).data.head? ≠ some '0' := by
  constructor
  · exact C8_ipv6_rendering.2.2 storeZero uuidZeroBytes [] loopback16 [] 0 1 187
      (by decide) rfl (by decide) (by decide)
  · exact (C8_ipv6_rendering.1 443).2.2 (by decide)

/-- C9: the sixteen id bytes are rendered in original order as 2-digit hex
pairs cut into the canonical 8-4-4-4-12 hyphenated shape, every rendered
digit is in the lowercase hex alphabet, and whenever variant A's parser gets
past the version byte, the single credential-store key it queries is exactly
that rendered string. -/
theorem C9_uuid_key :
    (∀ b0 b1 b2 b3 b4 b5 b6 b7 b8 b9 b10 b11 b12 b13 b14 b15 : Nat,
      (∀ b ∈ [b0, b1, b2, b3, b4, b5, b6, b7, b8, b9, b10, b11, b12, b13, b14, b15],
        b < 256) →
      bytesToUUID [b0, b1, b2, b3, b4, b5, b6, b7, b8, b9, b10, b11, b12, b13, b14, b15]
        = byteHex2 b0 ++ byteHex2 b1 ++ byteHex2 b2 ++ byteHex2 b3 ++ "-" ++
          byteHex2 b4 ++ byteHex2 b5 ++ "-" ++ byteHex2 b6 ++ byteHex2 b7 ++ "-" ++
          byteHex2 b8 ++ byteHex2 b9 ++ "-" ++ byteHex2 b10 ++ byteHex2 b11 ++
          byteHex2 b12 ++ byteHex2 b13 ++ byteHex2 b14 ++ byteHex2 b15)
    ∧ (∀ b : Nat, b < 256 → ∀ c ∈ (byteHex2 b).data, c ∈ hexAlphabet)
    ∧ (∀ (store : String → Bool) (buf : List Nat), 24 ≤ buf.length →
        jsByte buf 0 = some 0 →
        (parseAT store buf).2 = [bytesToUUID (jsSlice buf 1 17)]) :=
  ⟨bytesToUUID_canonical, fun b hb c hc => byteHex2_mem b hb c hc, parseAT_lookups⟩

/-- C9 witness: the bytes 0 through 15 render canonically, and the 26-byte
IPv4 frame's lookup key is the all-zero id string. -/
theorem C9_uuid_key_witness :
    bytesToUUID [0, 1, 2, 3, 4, 5, 6, 7, 8, 9, 10, 11, 12, 13, 14, 15]
      = byteHex2 0 ++ byteHex2 1 ++ byteHex2 2 ++ byteHex2 3 ++ "-" ++
        byteHex2 4 ++ byteHex2 5 ++ "-" ++ byteHex2 6 ++ byteHex2 7 ++ "-" ++
        byteHex2 8 ++ byteHex2 9 ++ "-" ++ byteHex2 10 ++ byteHex2 11 ++
        byteHex2 12 ++ byteHex2 13 ++ byteHex2 14 ++ byteHex2 15
    ∧ (parseAT storeZero ipv4Buf).2 = [bytesToUUID (jsSlice ipv4Buf 1 17)] :=
  ⟨C9_uuid_key.1 0 1 2 3 4 5 6 7 8 9 10 11 12 13 14 15 (by decide),
    C9_uuid_key.2.2 storeZero ipv4Buf (by decide) (by decide)⟩

/-- C10: for every buffer shorter than 24 bytes or with a nonzero version
byte, the parse outcome is identical under any two credential-store contents
and no credential-store lookup is performed.  Variant A's parser (336-360)
and variant B's parser (1197-1218) both return before touching the store for
such input; the `DataView` parser's handler (1985-1994 as called from
1860-1949) performs no lookup and no action at all on any input, the
`TypeError` at line 1875 aborting it before the first frame is read. -/
theorem C10_reject_before_lookup (s1 s2 : String → Bool) (kv : Bool)
    (cOk : Bool) (cErr : String) (buf : List Nat)
    (hbad : buf.length < 24 ∨ jsByte buf 0 ≠ some 0) :
    parseAT s1 buf = parseAT s2 buf
    ∧ (parseAT s1 buf).2 = []
    ∧ parseBT kv s1 buf = parseBT kv s2 buf
    ∧ (parseBT kv s1 buf).2 = []
    ∧ stepCT s1 cOk cErr buf = stepCT s2 cOk cErr buf
    ∧ (stepCT s1 cOk cErr buf).2 = [] := by
  refine ⟨?_, ?_, rfl, parseBT_lookups_reject kv s1 buf hbad, rfl, rfl⟩
  · rw [parseAT_reject s1 buf hbad, parseAT_reject s2 buf hbad]
  · rw [parseAT_reject s1 buf hbad]
    split <;> rfl

/-- C10 witness: the one-byte buffer `[1]` is rejected before any lookup,
independently of the store. -/
theorem C10_reject_before_lookup_witness :
    parseAT (fun _ => false) [1] = parseAT (fun _ => true) [1]
    ∧ (parseAT (fun _ => false) [1]).2 = []
    ∧ parseBT true (fun _ => false) [1] = parseBT true (fun _ => true) [1]
    ∧ (parseBT true (fun _ => false) [1]).2 = []
    ∧ stepCT (fun _ => false) true "" [1] = stepCT (fun _ => true) true "" [1]
    ∧ (stepCT (fun _ => false) true "" [1]).2 = [] :=
  C10_reject_before_lookup (fun _ => false) (fun _ => true) true true "" [1]
    (by decide)

end VlessWorker
